import Mathlib

/-!
Shallow embedding of the cloud-bucket-browser application (`app.py`):
path/scheme utilities, the listing normalizer, the chart-selection
heuristic, the connect handler and the navigation ("go up", open folder,
file selection) logic, together with theorems settling the specification
claims about them.

Python strings are embedded as `List Char` (`Str`); each Lean definition
mirrors one Python function or handler block of the source.
-/

/-- Python strings are modelled as lists of characters. -/
abbrev Str := List Char

/-- Conversion from Lean string literals to the `Str` embedding. -/
def str (s : String) : Str := s.data

/-- Python `s.startswith(p)` : does `s` start with the prefix `p`? -/
def startsWithB : Str → Str → Bool
  | _, [] => true
  | [], _ :: _ => false
  | c :: s, p :: ps => c == p && startsWithB s ps

/-- Python `s.endswith(p)` : does `s` end with the suffix `p`? -/
def endsWithB (s p : Str) : Bool := startsWithB s.reverse p.reverse

/-- Python `s.rstrip('/')` : drop every trailing `'/'`. -/
def rstripSlash (s : Str) : Str := (s.reverse.dropWhile (fun c => c == '/')).reverse

/-- Python `s.lstrip('/')` : drop every leading `'/'`. -/
def lstripSlash (s : Str) : Str := s.dropWhile (fun c => c == '/')

/-- Python `s.strip('/')` : drop leading and trailing `'/'`. -/
def stripSlash (s : Str) : Str := rstripSlash (lstripSlash s)

/-- Python `'/' in s`. -/
def containsSlash (s : Str) : Bool := s.any (fun c => c == '/')

/-- Python `s.split('/', 1)[0]` : the part of `s` before its first `'/'`
(the whole of `s` when it has none). -/
def beforeFirstSlash (s : Str) : Str := s.takeWhile (fun c => !(c == '/'))

/-- Python `s.split('/')` : split on every `'/'`; `"".split('/') == [""]`. -/
def splitOnSlash : Str → List Str
  | [] => [[]]
  | c :: rest =>
    if c == '/' then [] :: splitOnSlash rest
    else
      match splitOnSlash rest with
      | h :: t => (c :: h) :: t
      | [] => [[c]]

/-- Python `'/'.join(l)`. -/
def joinSlash : List Str → Str
  | [] => []
  | [s] => s
  | s :: rest => s ++ '/' :: joinSlash rest

/-- Python `s.lower()` on the ASCII range (the only characters occurring
in cloud paths here). -/
def lowerStr (s : Str) : Str := s.map Char.toLower

/-- `app.py` `detect_scheme`: `'s3'` for `s3://` URLs, `'gs'` for `gs://`
URLs, `''` otherwise (also for the empty string). -/
def detect_scheme (url : Str) : Str :=
  if url = [] then []
  else if startsWithB url (str "s3://") then str "s3"
  else if startsWithB url (str "gs://") then str "gs"
  else []

/-- `app.py` `clean_prefix`: empty input unchanged, otherwise strip all
trailing `/` and append exactly one.  (The source also calls
`path.strip()`; surrounding whitespace never occurs in the inputs we
quantify over, and the claims do not mention it, so the embedding elides
that no-op.) -/
def clean_prefix (path : Str) : Str :=
  if path = [] then path else rstripSlash path ++ ['/']

/-- `app.py` `strip_scheme`: returns `(scheme, without_scheme)`. -/
def strip_scheme (url : Str) : Str × Str :=
  if startsWithB url (str "s3://") then (str "s3", url.drop (str "s3://").length)
  else if startsWithB url (str "gs://") then (str "gs", url.drop (str "gs://").length)
  else ([], url)

/-- `app.py` `rebuild_url`: `f"{scheme}://{without_scheme}"`. -/
def rebuild_url (scheme without_scheme : Str) : Str :=
  scheme ++ str "://" ++ without_scheme

/-- `app.py` `basename_from_path`: strip trailing `/`, then the component
after the last `/` (the whole string when it has no `/`). -/
def basename_from_path (p : Str) : Str :=
  let q := rstripSlash p
  if containsSlash q then (q.reverse.takeWhile (fun c => !(c == '/'))).reverse else q

/-- `app.py` `ALLOWED_EXTS`. -/
def ALLOWED_EXTS : List Str := [str ".csv", str ".xls", str ".xlsx"]

/-- `app.py` `is_allowed_file`: case-insensitive suffix match against the
allowed extensions. -/
def is_allowed_file (name : Str) : Bool :=
  ALLOWED_EXTS.any (fun ext => endsWithB (lowerStr name) ext)

/-- Python string comparison (`<=` by code point, lexicographic), as used
by `sorted(..., key=...)`. -/
def strLeB : Str → Str → Bool
  | [], _ => true
  | _ :: _, [] => false
  | a :: as, b :: bs =>
    if a.toNat = b.toNat then strLeB as bs else decide (a.toNat < b.toNat)

/-- The sort relation of `list_cloud`: compare full path strings
case-insensitively (`key=lambda x: x.lower()`). -/
def lowLe (a b : Str) : Prop := strLeB (lowerStr a) (lowerStr b) = true

theorem strLeB_total (a b : Str) : strLeB a b = true ∨ strLeB b a = true := by
  induction a generalizing b with
  | nil => exact Or.inl rfl
  | cons x xs ih =>
    cases b with
    | nil => exact Or.inr rfl
    | cons y ys =>
      by_cases h : x.toNat = y.toNat
      · rcases ih ys with h1 | h1
        · exact Or.inl (by simp [strLeB, h, h1])
        · exact Or.inr (by simp [strLeB, h.symm, h1])
      · rcases Nat.lt_or_ge x.toNat y.toNat with hlt | hge
        · exact Or.inl (by simp [strLeB, h, hlt])
        · have hne : x.toNat ≠ y.toNat := h
          have hgt : y.toNat < x.toNat := by omega
          have hne2 : ¬ (y.toNat = x.toNat) := by omega
          exact Or.inr (by simp [strLeB, hne2, hgt])

theorem strLeB_trans (a b c : Str) (hab : strLeB a b = true) (hbc : strLeB b c = true) :
    strLeB a c = true := by
  induction a generalizing b c with
  | nil => rfl
  | cons x xs ih =>
    cases b with
    | nil => simp [strLeB] at hab
    | cons y ys =>
      cases c with
      | nil => simp [strLeB] at hbc
      | cons z zs =>
        simp only [strLeB] at hab hbc ⊢
        by_cases hxy : x.toNat = y.toNat <;> by_cases hyz : y.toNat = z.toNat
        · rw [if_pos hxy] at hab
          rw [if_pos hyz] at hbc
          rw [if_pos (hxy.trans hyz)]
          exact ih ys zs hab hbc
        · rw [if_neg hyz] at hbc
          simp only [decide_eq_true_eq] at hbc
          have : x.toNat < z.toNat := by omega
          rw [if_neg (by omega)]
          simpa using this
        · rw [if_neg hxy] at hab
          simp only [decide_eq_true_eq] at hab
          rw [if_neg (by omega)]
          simp; omega
        · rw [if_neg hxy] at hab
          rw [if_neg hyz] at hbc
          simp only [decide_eq_true_eq] at hab hbc
          rw [if_neg (by omega)]
          simp; omega

instance : DecidableRel lowLe := fun a b =>
  inferInstanceAs (Decidable (strLeB (lowerStr a) (lowerStr b) = true))

instance : IsTotal Str lowLe := ⟨fun a b => strLeB_total (lowerStr a) (lowerStr b)⟩

instance : IsTrans Str lowLe :=
  ⟨fun a b c => strLeB_trans (lowerStr a) (lowerStr b) (lowerStr c)⟩

/-- One raw result of a storage listing call: full key path (`name`) plus
whether the provider explicitly marked it a directory
(`it.get('type') == 'directory'`). -/
structure ListingEntry where
  name : Str
  isDir : Bool
deriving DecidableEq

/-- What the body of the `list_cloud` loop does with one entry. -/
inductive Classified
  | dir (d : Str)
  | file (f : Str)
  | skipped
deriving DecidableEq

/-- The body of the `for it in items` loop of `list_cloud` (`app.py`
lines 96-111), for one listing entry. -/
def classify_entry (scheme without : Str) (it : ListingEntry) : Classified :=
  let full_without := it.name
  let rel := if startsWithB full_without without then full_without.drop without.length
             else full_without
  if it.isDir || endsWithB full_without ['/'] then
    Classified.dir (rebuild_url scheme (rstripSlash full_without ++ ['/']))
  else if containsSlash rel then
    Classified.dir
      (rebuild_url scheme (rstripSlash without ++ ['/'] ++ stripSlash (beforeFirstSlash rel) ++ ['/']))
  else
    let full_url := rebuild_url scheme full_without
    if is_allowed_file full_url then Classified.file full_url else Classified.skipped

/-- The directory path (if any) one loop iteration adds to `dirs_set`. -/
def dirOpt (scheme without : Str) (it : ListingEntry) : Option Str :=
  match classify_entry scheme without it with
  | Classified.dir d => some d
  | _ => none

/-- The file path (if any) one loop iteration appends to `files`. -/
def fileOpt (scheme without : Str) (it : ListingEntry) : Option Str :=
  match classify_entry scheme without it with
  | Classified.file f => some f
  | _ => none

/-- The directory paths the loop adds to `dirs_set`, in iteration order. -/
def dirsOf (scheme without : Str) (items : List ListingEntry) : List Str :=
  items.filterMap (dirOpt scheme without)

/-- The file paths the loop appends to `files`, in iteration order. -/
def filesOf (scheme without : Str) (items : List ListingEntry) : List Str :=
  items.filterMap (fileOpt scheme without)

/-- The successful path of `list_cloud` (`app.py` lines 95-114): classify
every entry, collect `dirs_set` with set semantics and `files` as a plain
list, then sort each case-insensitively by full path. -/
def list_cloud_items (scheme without : Str) (items : List ListingEntry) : List Str × List Str :=
  (List.insertionSort lowLe (dirsOf scheme without items).dedup,
   List.insertionSort lowLe (filesOf scheme without items))

/-- The full result of `list_cloud`, including the `st.error` report the
except-branch emits (attempted prefix and underlying cause). -/
structure ListReport where
  dirs : List Str
  files : List Str
  errorMsg : Option (Str × Str)
deriving DecidableEq

/-- `app.py` `list_cloud`: the listing call is the external accessor
`ls`, which either returns the raw entries or fails with a cause; a
failure is caught, reported with the attempted prefix, and turned into
empty directory and file sets. -/
def list_cloud (ls : Str → Except Str (List ListingEntry)) (scheme : Str) (pre : Str) :
    ListReport :=
  let without := (strip_scheme pre).2
  match ls without with
  | Except.error e => { dirs := [], files := [], errorMsg := some (pre, e) }
  | Except.ok items =>
    let r := list_cloud_items scheme without items
    { dirs := r.1, files := r.2, errorMsg := none }

/-- The session navigation state: `session_state['prefix']` (`pfx`) and
`session_state['scheme']`. -/
structure NavigationState where
  pfx : Str
  scheme : Str
deriving DecidableEq

/-- Pressing "Refresh" does nothing to the state and re-runs
`list_cloud` on the current prefix (`app.py` lines 253-256). -/
def refresh (ls : Str → Except Str (List ListingEntry)) (st : NavigationState) :
    NavigationState × ListReport :=
  (st, list_cloud ls st.scheme st.pfx)

/-- The pandas dtype classification the heuristic branches on:
`pd.api.types.is_numeric_dtype` (numeric), `dtype == 'object'` (object),
or anything else (datetime, category, ...). -/
inductive Dtype
  | numeric
  | object
  | other
deriving DecidableEq

/-- One column of a loaded table: name, dtype classification, and
distinct-value count (`df[c].nunique()`). -/
structure Column where
  name : Str
  dtype : Dtype
  nunique : Nat
deriving DecidableEq

/-- A loaded table's schema: ordered columns plus row count `len(df)`. -/
structure Table where
  cols : List Column
  nrows : Nat
deriving DecidableEq

/-- `app.py` `EXPECTED_TIME_SERIES`. -/
def EXPECTED_TIME_SERIES : List Str :=
  [str "Frame Number", str "Procrustes Similarity", str "Joint Angle Distance"]

/-- `df.columns` in order. -/
def columnNames (t : Table) : List Str := t.cols.map Column.name

/-- `EXPECTED_TIME_SERIES.issubset(df.columns)`. -/
def expected_subset (t : Table) : Bool :=
  EXPECTED_TIME_SERIES.all (fun e => (columnNames t).contains e)

/-- `num_cols = [c for c in df.columns if pd.api.types.is_numeric_dtype(df[c])]`. -/
def num_cols (t : Table) : List Str :=
  (t.cols.filter (fun c => c.dtype == Dtype.numeric)).map Column.name

/-- `cand_label_cols = [c for c in df.columns if df[c].dtype == 'object'
and df[c].nunique() <= max(50, int(len(df)*0.8))]`.  The float expression
`int(len(df)*0.8)` equals `⌊4·n/5⌋` exactly for every realistic row
count, so it is embedded as exact natural division. -/
def cand_label_cols (t : Table) : List Str :=
  (t.cols.filter (fun c =>
    c.dtype == Dtype.object && decide (c.nunique ≤ max 50 (4 * t.nrows / 5)))).map Column.name

/-- The chart the visualize handler decides to render. -/
inductive ChartPlan
  | fixedLine
  | bar (label stat : Str)
  | genericLine (cols : List Str)
  | noChart (reason : Str)
deriving DecidableEq

/-- `app.py` `plot_generic_lines` as a decision: line chart over all
numeric columns, or the informational "No numeric columns to plot."
outcome when there are none. -/
def plot_generic_lines (t : Table) : ChartPlan :=
  if num_cols t = [] then ChartPlan.noChart (str "No numeric columns to plot.")
  else ChartPlan.genericLine (num_cols t)

/-- The chart-selection logic of the visualize handler (`app.py` lines
294-304): fixed time-series tier, then inferred bar tier (first
candidate label column and first numeric column), then
`plot_generic_lines`. -/
def chart_decision (t : Table) : ChartPlan :=
  if expected_subset t then ChartPlan.fixedLine
  else if !(num_cols t).isEmpty && !(cand_label_cols t).isEmpty then
    ChartPlan.bar (cand_label_cols t).headI (num_cols t).headI
  else plot_generic_lines t

/-- The dtype of `df[nm]` (the first column named `nm`). -/
def colDtype (t : Table) (nm : Str) : Option Dtype :=
  (t.cols.find? (fun c => c.name == nm)).map Column.dtype

/-- The observable outcome of `validate_and_plot_bar_interactive`. -/
inductive BarRender
  | warnedMissing
  | warnedNotNumeric
  | plotted
deriving DecidableEq

/-- `app.py` `validate_and_plot_bar_interactive`: re-validate the chosen
columns before rendering; warn and skip instead of raising. -/
def validate_and_plot_bar_interactive (t : Table) (label_col stat_col : Str) : BarRender :=
  if !(columnNames t).contains stat_col || !(columnNames t).contains label_col then
    BarRender.warnedMissing
  else if !(colDtype t stat_col == some Dtype.numeric) then
    BarRender.warnedNotNumeric
  else
    BarRender.plotted

/-- Concrete table for the C2 witness: a text label column (3 distinct
values over 10 rows) and a numeric value column. -/
def tableLabelValue : Table :=
  { cols := [{ name := str "Label", dtype := Dtype.object, nunique := 3 },
             { name := str "Value", dtype := Dtype.numeric, nunique := 10 }],
    nrows := 10 }

/-- Concrete table for the C6 witness: the three fixed time-series
columns plus an extra non-numeric column. -/
def tableTimeSeriesExtra : Table :=
  { cols := [{ name := str "Frame Number", dtype := Dtype.numeric, nunique := 100 },
             { name := str "Procrustes Similarity", dtype := Dtype.numeric, nunique := 100 },
             { name := str "Joint Angle Distance", dtype := Dtype.numeric, nunique := 100 },
             { name := str "Extra", dtype := Dtype.object, nunique := 100 }],
    nrows := 100 }

/-- Concrete table for the C7 witness: two numeric columns, no text. -/
def tableTwoNumeric : Table :=
  { cols := [{ name := str "A", dtype := Dtype.numeric, nunique := 5 },
             { name := str "B", dtype := Dtype.numeric, nunique := 5 }],
    nrows := 5 }

/-- Concrete table for the C7 witness: all columns text, none numeric. -/
def tableAllText : Table :=
  { cols := [{ name := str "P", dtype := Dtype.object, nunique := 200 },
             { name := str "Q", dtype := Dtype.object, nunique := 200 }],
    nrows := 5 }

-- Basic facts about `startsWithB`.

theorem startsWithB_append (p t : Str) : startsWithB (p ++ t) p = true := by
  induction p with
  | nil => cases t <;> rfl
  | cons c ps ih => simp [startsWithB, ih]

theorem eq_append_drop_of_startsWithB {s p : Str} (h : startsWithB s p = true) :
    s = p ++ s.drop p.length := by
  induction p generalizing s with
  | nil => simp
  | cons c ps ih =>
    cases s with
    | nil => simp [startsWithB] at h
    | cons a s' =>
      simp only [startsWithB, Bool.and_eq_true, beq_iff_eq] at h
      obtain ⟨rfl, h2⟩ := h
      simpa using ih h2

/-- C9: rebuilding after stripping restores any URL that starts with a
recognized scheme prefix. -/
theorem rebuild_strip_roundtrip (u : Str)
    (h : startsWithB u (str "s3://") = true ∨ startsWithB u (str "gs://") = true) :
    rebuild_url (strip_scheme u).1 (strip_scheme u).2 = u := by
  rcases h with h | h
  · have hu := eq_append_drop_of_startsWithB h
    simp only [strip_scheme, h, if_pos]
    conv_rhs => rw [hu]
    rfl
  · have hu := eq_append_drop_of_startsWithB h
    have hs3 : startsWithB u (str "s3://") = false := by rw [hu]; rfl
    simp only [strip_scheme, hs3, h, Bool.false_eq_true, if_false, if_true]
    conv_rhs => rw [hu]
    rfl

theorem rebuild_url_inj {scheme a b : Str} (h : rebuild_url scheme a = rebuild_url scheme b) :
    a = b := by
  simp only [rebuild_url, List.append_assoc, List.append_cancel_left_eq] at h
  exact h

theorem classify_entry_file {scheme without : Str} {it : ListingEntry} {f : Str}
    (h : classify_entry scheme without it = Classified.file f) :
    f = rebuild_url scheme it.name := by
  simp only [classify_entry] at h
  repeat' split at h
  all_goals cases h
  all_goals rfl

theorem fileOpt_none_of_dir {scheme without : Str} {it : ListingEntry} {d : Str}
    (hc : classify_entry scheme without it = Classified.dir d) :
    fileOpt scheme without it = none := by
  unfold fileOpt
  rw [hc]

theorem fileOpt_none_of_skipped {scheme without : Str} {it : ListingEntry}
    (hc : classify_entry scheme without it = Classified.skipped) :
    fileOpt scheme without it = none := by
  unfold fileOpt
  rw [hc]

theorem fileOpt_some_of_file {scheme without : Str} {it : ListingEntry} {f : Str}
    (hc : classify_entry scheme without it = Classified.file f) :
    fileOpt scheme without it = some f := by
  unfold fileOpt
  rw [hc]

theorem fileOpt_eq_some {scheme without : Str} {it : ListingEntry} {f : Str}
    (h : fileOpt scheme without it = some f) :
    classify_entry scheme without it = Classified.file f := by
  cases hc : classify_entry scheme without it with
  | dir d => rw [fileOpt_none_of_dir hc] at h; exact Option.noConfusion h
  | skipped => rw [fileOpt_none_of_skipped hc] at h; exact Option.noConfusion h
  | file g =>
    rw [fileOpt_some_of_file hc] at h
    rw [Option.some.inj h]

/-- The `files` list of the loop has no duplicates as soon as the raw
listing contains no repeated entry names. -/
theorem filesOf_nodup (scheme without : Str) (items : List ListingEntry)
    (h : (items.map ListingEntry.name).Nodup) : (filesOf scheme without items).Nodup := by
  induction items with
  | nil => simp [filesOf]
  | cons it rest ih =>
    simp only [List.map_cons, List.nodup_cons] at h
    obtain ⟨hnotin, hrest⟩ := h
    cases hc : classify_entry scheme without it with
    | dir d =>
      simpa [filesOf, List.filterMap_cons, fileOpt_none_of_dir hc] using ih hrest
    | skipped =>
      simpa [filesOf, List.filterMap_cons, fileOpt_none_of_skipped hc] using ih hrest
    | file f =>
      simp only [filesOf, List.filterMap_cons, fileOpt_some_of_file hc]
      refine List.Nodup.cons ?_ (ih hrest)
      intro hmem
      obtain ⟨a, ha, hga⟩ := List.mem_filterMap.1 hmem
      have hca := fileOpt_eq_some hga
      have h1 : f = rebuild_url scheme it.name := classify_entry_file hc
      have h2 : f = rebuild_url scheme a.name := classify_entry_file hca
      have : it.name = a.name := rebuild_url_inj (h1 ▸ h2)
      exact hnotin (List.mem_map.2 ⟨a, ha, this.symm⟩)

/-- C5 (amended): the directory set is deduplicated and both outputs are
sorted case-insensitively by full path string; the file list is
duplicate-free whenever the raw listing has no repeated entry names. -/
theorem list_cloud_items_nodup_sorted (scheme without : Str) (items : List ListingEntry) :
    (list_cloud_items scheme without items).1.Nodup ∧
    List.Sorted lowLe (list_cloud_items scheme without items).1 ∧
    List.Sorted lowLe (list_cloud_items scheme without items).2 ∧
    ((items.map ListingEntry.name).Nodup → (list_cloud_items scheme without items).2.Nodup) := by
  refine ⟨?_, List.sorted_insertionSort _ _, List.sorted_insertionSort _ _, fun h => ?_⟩
  · exact ((List.perm_insertionSort _ _).nodup_iff).2 (List.nodup_dedup _)
  · exact ((List.perm_insertionSort _ _).nodup_iff).2 (filesOf_nodup _ _ _ h)

/-- Witness for C5 (amended) at a concrete listing. -/
theorem list_cloud_items_nodup_sorted_witness :
    (list_cloud_items (str "s3") (str "bucket/a/")
      [⟨str "bucket/a/b.csv", false⟩, ⟨str "bucket/a/c.csv", false⟩]).1.Nodup ∧
    List.Sorted lowLe (list_cloud_items (str "s3") (str "bucket/a/")
      [⟨str "bucket/a/b.csv", false⟩, ⟨str "bucket/a/c.csv", false⟩]).1 ∧
    List.Sorted lowLe (list_cloud_items (str "s3") (str "bucket/a/")
      [⟨str "bucket/a/b.csv", false⟩, ⟨str "bucket/a/c.csv", false⟩]).2 ∧
    (list_cloud_items (str "s3") (str "bucket/a/")
      [⟨str "bucket/a/b.csv", false⟩, ⟨str "bucket/a/c.csv", false⟩]).2.Nodup := by
  have h := list_cloud_items_nodup_sorted (str "s3") (str "bucket/a/")
    [⟨str "bucket/a/b.csv", false⟩, ⟨str "bucket/a/c.csv", false⟩]
  exact ⟨h.1, h.2.1, h.2.2.1, h.2.2.2 (by decide)⟩

/-- C5 (counterexample): a listing that repeats the same file entry twice
produces a file list with a duplicate — the file list is sorted but not
deduplicated (only the directory set goes through a set). -/
theorem list_cloud_items_files_duplicate :
    (list_cloud_items (str "s3") (str "bucket/a/")
      [⟨str "bucket/a/x.csv", false⟩, ⟨str "bucket/a/x.csv", false⟩]).2 =
      [str "s3://bucket/a/x.csv", str "s3://bucket/a/x.csv"] ∧
    ¬ (list_cloud_items (str "s3") (str "bucket/a/")
      [⟨str "bucket/a/x.csv", false⟩, ⟨str "bucket/a/x.csv", false⟩]).2.Nodup := by
  constructor
  · decide
  · decide

/-- C1 (counterexample): with the listing entries exactly as the claim
states them (paths `a/b.csv`, `a/c/d.csv`, `a/e.txt`) under prefix body
`bucket/a/`, none of the entry paths starts with the prefix, so the
defensive fallback treats each whole path as `rel` and every entry
collapses into the single inferred folder `s3://bucket/a/a/`; the claimed
result (directories `{s3://bucket/a/c/}`, files `{s3://bucket/a/b.csv}`)
does not hold. -/
theorem listing_example_as_stated_fails :
    list_cloud_items (str "s3") (str "bucket/a/")
      [⟨str "a/b.csv", false⟩, ⟨str "a/c/d.csv", false⟩, ⟨str "a/e.txt", false⟩] =
      ([str "s3://bucket/a/a/"], []) ∧
    ¬ (list_cloud_items (str "s3") (str "bucket/a/")
        [⟨str "a/b.csv", false⟩, ⟨str "a/c/d.csv", false⟩, ⟨str "a/e.txt", false⟩] =
      ([str "s3://bucket/a/c/"], [str "s3://bucket/a/b.csv"])) := by
  constructor
  · decide
  · decide

/-- C1 (amended): with the three entries given as full key paths under
the prefix (`bucket/a/b.csv`, `bucket/a/c/d.csv`, `bucket/a/e.txt`), the
normalizer returns exactly directory set `{s3://bucket/a/c/}` and file
set `{s3://bucket/a/b.csv}`: the `.txt` file is excluded by the file
filter and the nested key `d.csv` is collapsed into the inferred child
folder `c/`. -/
theorem listing_example_full_keys :
    list_cloud_items (str "s3") (str "bucket/a/")
      [⟨str "bucket/a/b.csv", false⟩, ⟨str "bucket/a/c/d.csv", false⟩,
       ⟨str "bucket/a/e.txt", false⟩] =
      ([str "s3://bucket/a/c/"], [str "s3://bucket/a/b.csv"]) := by
  decide

/-- C3: when the underlying listing call fails for any cause, `refresh`
leaves the navigation state unchanged, returns empty directory and file
sets, and reports the failure with the attempted prefix and the cause
(the exception is caught, not propagated). -/
theorem refresh_on_list_error (ls : Str → Except Str (List ListingEntry))
    (st : NavigationState) (e : Str)
    (h : ls (strip_scheme st.pfx).2 = Except.error e) :
    refresh ls st = (st, { dirs := [], files := [], errorMsg := some (st.pfx, e) }) := by
  simp [refresh, list_cloud, h]

/-- Witness for C3 with a concretely failing accessor. -/
theorem refresh_on_list_error_witness :
    refresh (fun _ => Except.error (str "network down"))
        ⟨str "s3://bucket/a/", str "s3"⟩ =
      (⟨str "s3://bucket/a/", str "s3"⟩,
       { dirs := [], files := [],
         errorMsg := some (str "s3://bucket/a/", str "network down") }) :=
  refresh_on_list_error (fun _ => Except.error (str "network down"))
    ⟨str "s3://bucket/a/", str "s3"⟩ (str "network down") rfl

/-- Witness for C9 at a concrete URL. -/
theorem rebuild_strip_roundtrip_witness :
    rebuild_url (strip_scheme (str "s3://bucket/x/y.csv")).1
      (strip_scheme (str "s3://bucket/x/y.csv")).2 = str "s3://bucket/x/y.csv" :=
  rebuild_strip_roundtrip (str "s3://bucket/x/y.csv") (Or.inl (by decide))

theorem expected_subset_eq_true_iff (t : Table) :
    expected_subset t = true ↔ ∀ e ∈ EXPECTED_TIME_SERIES, e ∈ columnNames t := by
  simp [expected_subset, List.all_eq_true, List.elem_iff]

/-- C6: whenever the column set contains all three fixed time-series
names, the heuristic selects the fixed multi-series line chart, whatever
the other columns are; no later tier is consulted. -/
theorem fixed_chart_of_superset (t : Table)
    (h : ∀ e ∈ EXPECTED_TIME_SERIES, e ∈ columnNames t) :
    chart_decision t = ChartPlan.fixedLine := by
  have hb : expected_subset t = true := (expected_subset_eq_true_iff t).2 h
  simp [chart_decision, hb]

/-- Witness for C6: the three fixed columns plus an extra text column
still select the fixed chart. -/
theorem fixed_chart_of_superset_witness :
    chart_decision tableTimeSeriesExtra = ChartPlan.fixedLine :=
  fixed_chart_of_superset tableTimeSeriesExtra (by decide)

/-- C2: on a table missing one of the fixed time-series names, with at
least one numeric column and at least one candidate text label column
(distinct-value count at most `max(50, int(0.8·n))`), the heuristic
selects the inferred bar chart over the first candidate label column and
the first numeric column (both in original column order); and the
pre-render re-validation renders only when the chosen value column
exists and is numeric, degrading to a warning outcome otherwise instead
of raising. -/
theorem bar_chart_selection (t : Table)
    (hns : ¬ ∀ e ∈ EXPECTED_TIME_SERIES, e ∈ columnNames t)
    (hnum : num_cols t ≠ [])
    (hcand : cand_label_cols t ≠ []) :
    chart_decision t = ChartPlan.bar (cand_label_cols t).headI (num_cols t).headI ∧
    (∀ lbl stat : Str,
      ¬ (stat ∈ columnNames t ∧ colDtype t stat = some Dtype.numeric) →
      validate_and_plot_bar_interactive t lbl stat ≠ BarRender.plotted) := by
  constructor
  · have hb : expected_subset t = false := by
      rcases Bool.eq_false_or_eq_true (expected_subset t) with h | h
      · exact absurd ((expected_subset_eq_true_iff t).1 h) hns
      · exact h
    simp [chart_decision, hb, List.isEmpty_iff, hnum, hcand]
  · intro lbl stat hbad
    unfold validate_and_plot_bar_interactive
    split
    · simp
    · split
      · simp
      · rename_i h1 h2
        exfalso
        apply hbad
        constructor
        · have hs : (columnNames t).contains stat = true := by
            rcases Bool.eq_false_or_eq_true ((columnNames t).contains stat) with ht | hf
            · exact ht
            · refine absurd ?_ h1
              simp only [Bool.or_eq_true, Bool.not_eq_true']
              exact Or.inl hf
          exact List.elem_iff.1 hs
        · have hn : (colDtype t stat == some Dtype.numeric) = true := by
            rcases Bool.eq_false_or_eq_true (colDtype t stat == some Dtype.numeric) with ht | hf
            · exact ht
            · exact absurd (by simp [hf]) h2
          exact eq_of_beq hn

/-- Witness for C2 at a concrete table. -/
theorem bar_chart_selection_witness :
    chart_decision tableLabelValue = ChartPlan.bar (str "Label") (str "Value") ∧
    validate_and_plot_bar_interactive tableLabelValue (str "Label") (str "Missing") ≠
      BarRender.plotted := by
  have h := bar_chart_selection tableLabelValue (by decide) (by decide) (by decide)
  exact ⟨h.1.trans (by decide), h.2 (str "Label") (str "Missing") (by decide)⟩

/-- C7: on a table matching neither the fixed time-series tier nor the
inferred bar tier, the heuristic selects the multi-series line chart
over exactly the numeric columns when at least one exists, and otherwise
the explicit no-chart outcome ("No numeric columns to plot."); and on
every table whatsoever the decision is one of the four planned outcomes
(the decision function is total — it never raises). -/
theorem generic_tier_outcomes (t : Table)
    (hns : ¬ ∀ e ∈ EXPECTED_TIME_SERIES, e ∈ columnNames t)
    (htier2 : ¬ (num_cols t ≠ [] ∧ cand_label_cols t ≠ [])) :
    (num_cols t ≠ [] → chart_decision t = ChartPlan.genericLine (num_cols t)) ∧
    (num_cols t = [] → chart_decision t = ChartPlan.noChart (str "No numeric columns to plot.")) ∧
    (∀ u : Table, chart_decision u = ChartPlan.fixedLine ∨
      (∃ l s, chart_decision u = ChartPlan.bar l s) ∨
      (∃ cs, chart_decision u = ChartPlan.genericLine cs) ∨
      (∃ r, chart_decision u = ChartPlan.noChart r)) := by
  have hb : expected_subset t = false := by
    rcases Bool.eq_false_or_eq_true (expected_subset t) with h | h
    · exact absurd ((expected_subset_eq_true_iff t).1 h) hns
    · exact h
  refine ⟨?_, ?_, ?_⟩
  · intro hnum
    have hcand : cand_label_cols t = [] := by
      by_contra hc
      exact htier2 ⟨hnum, hc⟩
    simp [chart_decision, hb, plot_generic_lines, hcand, hnum, List.isEmpty_iff]
  · intro hnum
    simp [chart_decision, hb, plot_generic_lines, hnum, List.isEmpty_iff]
  · intro u
    cases h : chart_decision u with
    | fixedLine => exact Or.inl rfl
    | bar l s => exact Or.inr (Or.inl ⟨l, s, rfl⟩)
    | genericLine cs => exact Or.inr (Or.inr (Or.inl ⟨cs, rfl⟩))
    | noChart r => exact Or.inr (Or.inr (Or.inr ⟨r, rfl⟩))

/-- Witness for C7: two numeric columns give the generic line chart over
both; an all-text table gives the explicit no-chart outcome. -/
theorem generic_tier_outcomes_witness :
    chart_decision tableTwoNumeric = ChartPlan.genericLine [str "A", str "B"] ∧
    chart_decision tableAllText = ChartPlan.noChart (str "No numeric columns to plot.") := by
  have h1 := generic_tier_outcomes tableTwoNumeric (by decide) (by decide)
  have h2 := generic_tier_outcomes tableAllText (by decide) (by decide)
  exact ⟨(h1.1 (by decide)).trans (by decide), h2.2.1 (by decide)⟩

/-- The body computation of the "Go up one level" handler:
`parts = without.rstrip('/').split('/')`, then
`'/'.join(parts[:-1]) + '/'` when more than one segment remains, else
`parts[0] + '/'`. -/
def go_up_body (without : Str) : Str :=
  let parts := splitOnSlash (rstripSlash without)
  if parts.length > 1 then joinSlash parts.dropLast ++ ['/']
  else parts.headI ++ ['/']

/-- The "Go up one level" handler (`app.py` lines 244-251): strip the
scheme, compute the new body, rebuild with the scheme. -/
def go_up (cur : Str) : Str :=
  let sw := strip_scheme cur
  rebuild_url sw.1 (go_up_body sw.2)

/-- "Go up" on the session state: only `session_state['prefix']` is
assigned; the scheme and accessor keys are untouched. -/
def goUpState (st : NavigationState) : NavigationState :=
  { st with pfx := go_up st.pfx }

/-- The first `/`-segment of a prefix body (the bucket name). -/
def firstSegment (w : Str) : Str := (splitOnSlash (rstripSlash w)).headI

theorem strip_rebuild_s3 (b : Str) :
    strip_scheme (rebuild_url (str "s3") b) = (str "s3", b) := by
  have he : rebuild_url (str "s3") b = str "s3://" ++ b := rfl
  have h : startsWithB (str "s3://" ++ b) (str "s3://") = true := startsWithB_append _ _
  rw [he]
  unfold strip_scheme
  rw [if_pos h]
  simp [List.drop_left]

theorem strip_rebuild_gs (b : Str) :
    strip_scheme (rebuild_url (str "gs") b) = (str "gs", b) := by
  have he : rebuild_url (str "gs") b = str "gs://" ++ b := rfl
  have h : startsWithB (str "gs://" ++ b) (str "gs://") = true := startsWithB_append _ _
  have h3 : startsWithB (str "gs://" ++ b) (str "s3://") = false := rfl
  rw [he]
  unfold strip_scheme
  rw [if_neg (by simp [h3]), if_pos h]
  simp [List.drop_left]

theorem startsWithB_nil_right (s : Str) : startsWithB s [] = true := by
  cases s <;> rfl

theorem splitOnSlash_ne_nil (s : Str) : splitOnSlash s ≠ [] := by
  cases s with
  | nil => simp [splitOnSlash]
  | cons c rest =>
    simp only [splitOnSlash]
    split
    · simp
    · split <;> simp

theorem splitOnSlash_elem_no_slash {s x : Str} (hx : x ∈ splitOnSlash s) :
    containsSlash x = false := by
  induction s generalizing x with
  | nil =>
    simp only [splitOnSlash, List.mem_singleton] at hx
    subst hx
    rfl
  | cons c rest ih =>
    simp only [splitOnSlash] at hx
    by_cases hc : (c == '/') = true
    · rw [if_pos hc] at hx
      rcases List.mem_cons.1 hx with h | h
      · subst h; rfl
      · exact ih h
    · rw [if_neg hc] at hx
      have hcf : (c == '/') = false := by simpa using hc
      rcases hsp : splitOnSlash rest with _ | ⟨h0, t0⟩
      · exact absurd hsp (splitOnSlash_ne_nil rest)
      · rw [hsp] at hx
        rcases List.mem_cons.1 hx with h | h
        · subst h
          have hh0 : containsSlash h0 = false :=
            ih (by rw [hsp]; exact List.mem_cons_self _ _)
          simp only [containsSlash, List.any_cons] at hh0 ⊢
          simp [hcf, hh0]
        · exact ih (by rw [hsp]; exact List.mem_cons_of_mem _ h)

theorem splitOnSlash_cons_of_ne {c : Char} {s : Str} (hc : (c == '/') = false) :
    splitOnSlash (c :: s) = (c :: (splitOnSlash s).headI) :: (splitOnSlash s).tail := by
  simp only [splitOnSlash]
  rw [if_neg (by simp [hc])]
  rcases hsp : splitOnSlash s with _ | ⟨h0, t0⟩
  · exact absurd hsp (splitOnSlash_ne_nil _)
  · rfl

theorem headI_splitOnSlash_cons_slash (s : Str) : (splitOnSlash ('/' :: s)).headI = [] := by
  simp [splitOnSlash]

theorem splitOnSlash_no_slash {a : Str} (ha : containsSlash a = false) :
    splitOnSlash a = [a] := by
  induction a with
  | nil => rfl
  | cons c cs ih =>
    simp only [containsSlash, List.any_cons, Bool.or_eq_false_iff] at ha
    have hrest : splitOnSlash cs = [cs] := ih (by simp [containsSlash, ha.2])
    rw [splitOnSlash_cons_of_ne ha.1, hrest]
    rfl

theorem headI_splitOnSlash_append {a : Str} (ha : containsSlash a = false) (r : Str) :
    (splitOnSlash (a ++ r)).headI = a ++ (splitOnSlash r).headI := by
  induction a with
  | nil => simp
  | cons c cs ih =>
    simp only [containsSlash, List.any_cons, Bool.or_eq_false_iff] at ha
    have ih2 := ih (by simp [containsSlash, ha.2])
    rw [List.cons_append, splitOnSlash_cons_of_ne ha.1, List.cons_append]
    show c :: (splitOnSlash (cs ++ r)).headI = c :: (cs ++ (splitOnSlash r).headI)
    rw [ih2]

theorem dropWhileSlash_eq_self {l : Str} (h : ∀ c ∈ l, (c == '/') = false) :
    l.dropWhile (fun c => c == '/') = l := by
  cases l with
  | nil => rfl
  | cons c cs => simp [List.dropWhile_cons, h c (List.mem_cons_self _ _)]

theorem rstripSlash_no_slash {a : Str} (ha : containsSlash a = false) : rstripSlash a = a := by
  unfold rstripSlash
  rw [dropWhileSlash_eq_self, List.reverse_reverse]
  intro c hc
  have hmem : c ∈ a := List.mem_reverse.1 hc
  simp only [containsSlash, List.any_eq_false] at ha
  simpa using ha c hmem

theorem rstripSlash_append_slash (s : Str) : rstripSlash (s ++ ['/']) = rstripSlash s := by
  unfold rstripSlash
  rw [List.reverse_append]
  simp [List.dropWhile_cons]

theorem rstripSlash_append_of_nil {a r : Str} (h : rstripSlash r = []) :
    rstripSlash (a ++ r) = rstripSlash a := by
  unfold rstripSlash at h ⊢
  rw [List.reverse_append, List.dropWhile_append]
  have hdw : List.dropWhile (fun c => c == '/') r.reverse = [] := by
    have h2 := congrArg List.reverse h
    simpa using h2
  rw [if_pos (by simp [hdw])]

theorem rstripSlash_append_of_ne_nil {a r : Str} (h : rstripSlash r ≠ []) :
    rstripSlash (a ++ r) = a ++ rstripSlash r := by
  unfold rstripSlash at h ⊢
  rw [List.reverse_append, List.dropWhile_append]
  have hne : (List.dropWhile (fun c => c == '/') r.reverse).isEmpty = false := by
    rcases hd : List.dropWhile (fun c => c == '/') r.reverse with _ | ⟨x, xs⟩
    · exact absurd (by rw [hd]; rfl) h
    · rfl
  rw [if_neg (by simp [hne]), List.reverse_append, List.reverse_reverse]

theorem rstripSlash_cons_slash_of_ne {X : Str} (h : rstripSlash X ≠ []) :
    rstripSlash ('/' :: X) = '/' :: rstripSlash X := by
  have h2 := rstripSlash_append_of_ne_nil (a := ['/']) (r := X) h
  simpa using h2

theorem rstripSlash_single_slash : rstripSlash ['/'] = [] := rfl

theorem endsWithB_append_slash (s : Str) : endsWithB (s ++ ['/']) ['/'] = true := by
  unfold endsWithB
  rw [List.reverse_append]
  show startsWithB ('/' :: s.reverse) ['/'] = true
  simp [startsWithB, startsWithB_nil_right]

/-- Heart of the goUp floor property: for a slash-free first segment `a`,
the first segment of `a ++ '/' :: X` after trailing-slash stripping is
`a` again. -/
theorem firstSegment_core {a : Str} (ha : containsSlash a = false) (X : Str) :
    (splitOnSlash (rstripSlash (a ++ '/' :: X))).headI = a := by
  by_cases h : rstripSlash ('/' :: X) = []
  · have h1 : rstripSlash (a ++ '/' :: X) = rstripSlash a :=
      rstripSlash_append_of_nil h
    rw [h1, rstripSlash_no_slash ha, splitOnSlash_no_slash ha]
    rfl
  · have h1 : rstripSlash (a ++ '/' :: X) = a ++ rstripSlash ('/' :: X) :=
      rstripSlash_append_of_ne_nil h
    have hX : rstripSlash X ≠ [] := by
      intro hX0
      apply h
      have : ('/' :: X) = ['/'] ++ X := rfl
      rw [this, rstripSlash_append_of_nil hX0]
      exact rstripSlash_single_slash
    have h2 : rstripSlash ('/' :: X) = '/' :: rstripSlash X :=
      rstripSlash_cons_slash_of_ne hX
    rw [h1, h2, headI_splitOnSlash_append ha, headI_splitOnSlash_cons_slash]
    simp

/-- The new body computed by goUp keeps the first segment (the bucket
name) and always ends with `/`. -/
theorem go_up_body_props (w : Str) :
    firstSegment (go_up_body w) = firstSegment w ∧
    endsWithB (go_up_body w) ['/'] = true := by
  rcases hsp : splitOnSlash (rstripSlash w) with _ | ⟨a, l1⟩
  · exact absurd hsp (splitOnSlash_ne_nil _)
  have ha : containsSlash a = false :=
    splitOnSlash_elem_no_slash (by rw [hsp]; exact List.mem_cons_self _ _)
  have hfw : firstSegment w = a := by
    unfold firstSegment
    rw [hsp]
    rfl
  unfold go_up_body
  rw [hsp, hfw]
  cases l1 with
  | nil =>
    simp only [List.length_singleton, gt_iff_lt, lt_irrefl, if_false, List.headI]
    constructor
    · have hcore := firstSegment_core ha []
      unfold firstSegment
      simpa using hcore
    · exact endsWithB_append_slash _
  | cons b m =>
    have hlen : (a :: b :: m).length > 1 := by simp
    rw [if_pos hlen]
    have hdl : (a :: b :: m).dropLast = a :: (b :: m).dropLast := rfl
    rw [hdl]
    cases hd : (b :: m).dropLast with
    | nil =>
      constructor
      · have hcore := firstSegment_core ha []
        unfold firstSegment
        simpa using hcore
      · exact endsWithB_append_slash _
    | cons c k =>
      have hjoin : joinSlash (a :: c :: k) = a ++ '/' :: joinSlash (c :: k) := rfl
      rw [hjoin]
      have hassoc : (a ++ '/' :: joinSlash (c :: k)) ++ ['/'] =
          a ++ '/' :: (joinSlash (c :: k) ++ ['/']) := by simp
      rw [hassoc]
      constructor
      · exact firstSegment_core ha _
      · have := endsWithB_append_slash (a ++ '/' :: joinSlash (c :: k))
        rw [hassoc] at this
        exact this

/-- C8: goUp strips the scheme, splits the body on `/` after removing
trailing slashes, drops the last segment (or keeps the single remaining
segment) and rejoins with a trailing `/`: from `s3://bucket/x/y/` it
yields `s3://bucket/x/`, from `s3://bucket/x/` it yields `s3://bucket/`;
it never changes the scheme (the state stays Connected) and never
changes — in particular never empties — the first segment (the bucket
name), and the new body always ends with `/`. -/
theorem go_up_behavior :
    go_up (str "s3://bucket/x/y/") = str "s3://bucket/x/" ∧
    go_up (str "s3://bucket/x/") = str "s3://bucket/" ∧
    (∀ st : NavigationState, (goUpState st).scheme = st.scheme) ∧
    (∀ scheme body : Str, (scheme = str "s3" ∨ scheme = str "gs") →
      firstSegment ((strip_scheme (go_up (rebuild_url scheme body))).2) = firstSegment body ∧
      endsWithB ((strip_scheme (go_up (rebuild_url scheme body))).2) ['/'] = true) := by
  refine ⟨by decide, by decide, fun st => rfl, ?_⟩
  intro scheme body hsch
  have hstrip2 : (strip_scheme (go_up (rebuild_url scheme body))).2 = go_up_body body := by
    rcases hsch with h | h <;> subst h
    · unfold go_up
      rw [strip_rebuild_s3 body]
      exact congrArg Prod.snd (strip_rebuild_s3 (go_up_body body))
    · unfold go_up
      rw [strip_rebuild_gs body]
      exact congrArg Prod.snd (strip_rebuild_gs (go_up_body body))
  rw [hstrip2]
  exact go_up_body_props body

/-- Witness for C8's quantified part at a concrete prefix. -/
theorem go_up_behavior_witness :
    firstSegment ((strip_scheme (go_up (rebuild_url (str "s3") (str "bucket/x/y/")))).2) =
      firstSegment (str "bucket/x/y/") ∧
    endsWithB ((strip_scheme (go_up (rebuild_url (str "s3") (str "bucket/x/y/")))).2)
      ['/'] = true :=
  go_up_behavior.2.2.2 (str "s3") (str "bucket/x/y/") (Or.inl rfl)

/-- The GCS token the source can pass to `gcsfs`: `'anon'`, a parsed
service-account JSON, or `'google_default'`. -/
inductive GcsToken
  | anon
  | jsonCreds (j : Str)
  | googleDefault
deriving DecidableEq

/-- The filesystem accessor `get_fs` constructs (the constructor
arguments record which configuration was passed to the provider
library). -/
inductive Fs
  | s3Anon
  | s3Opts (creds : Option (Str × Str × Option Str)) (region : Option Str)
  | gcs (token : GcsToken)
deriving DecidableEq

/-- `app.py` `get_fs`: build the provider filesystem; any unrecognized
scheme raises `ValueError("Unsupported scheme. Use s3:// or gs://")`
(modelled as `Except.error`). -/
def get_fs (scheme : Str) (anon : Bool)
    (aws_access_key_id aws_secret_access_key aws_session_token region_name : Str)
    (gcs_token : Option GcsToken) : Except Str Fs :=
  if scheme = str "s3" then
    if anon then Except.ok Fs.s3Anon
    else
      Except.ok (Fs.s3Opts
        (if aws_access_key_id ≠ [] ∧ aws_secret_access_key ≠ [] then
          some (aws_access_key_id, aws_secret_access_key,
                if aws_session_token ≠ [] then some aws_session_token else none)
         else none)
        (if region_name ≠ [] then some region_name else none))
  else if scheme = str "gs" then
    Except.ok (Fs.gcs (if anon then GcsToken.anon else gcs_token.getD GcsToken.googleDefault))
  else Except.error (str "Unsupported scheme. Use s3:// or gs://")

/-- The inputs the Connect handler reads from the sidebar widgets and
the environment. -/
structure ConnectConfig where
  public : Bool
  aws_access_key_id : Str
  aws_secret_access_key : Str
  aws_session_token : Str
  region_name : Str
  creds_file : Option Str
  env_google_creds : Option Str
deriving DecidableEq

/-- What a Connect press results in: the `if connect and scheme:` guard
can skip the handler entirely; the GCS branch can stop with the
missing-credentials error; otherwise a Connected session state plus a
constructed accessor. -/
inductive ConnectOutcome
  | skipped
  | missingCredentials
  | connected (st : NavigationState) (fs : Fs)
deriving DecidableEq

/-- The Connect button handler (`app.py` lines 195-226).  With an
unrecognized scheme the guard `if connect and scheme:` is false and
nothing happens.  For `s3`, the accessor is always constructed (no
credential check).  For `gs`, non-anonymous access with neither an
uploaded service-account file nor `GOOGLE_APPLICATION_CREDENTIALS` stops
with an error before constructing anything.  (`get_fs` never fails on
the two recognized schemes, so its error branch is unreachable here.) -/
def connect_handler (bucket_input : Str) (cfg : ConnectConfig) : ConnectOutcome :=
  let scheme := detect_scheme bucket_input
  if scheme = [] then ConnectOutcome.skipped
  else if scheme = str "s3" then
    match get_fs (str "s3") cfg.public cfg.aws_access_key_id cfg.aws_secret_access_key
        cfg.aws_session_token cfg.region_name none with
    | Except.ok fs => ConnectOutcome.connected ⟨ clean_prefix bucket_input, str "s3"⟩ fs
    | Except.error _ => ConnectOutcome.skipped
  else
    if cfg.public = false ∧ cfg.creds_file = none ∧ cfg.env_google_creds = none then
      ConnectOutcome.missingCredentials
    else
      let token := if cfg.public then GcsToken.anon
                   else match cfg.creds_file with
                        | some j => GcsToken.jsonCreds j
                        | none => GcsToken.googleDefault
      match get_fs (str "gs") cfg.public [] [] [] [] (some token) with
      | Except.ok fs => ConnectOutcome.connected ⟨ clean_prefix bucket_input, str "gs"⟩ fs
      | Except.error _ => ConnectOutcome.skipped

/-- A non-anonymous configuration carrying no credential of any kind. -/
def cfgNoCreds : ConnectConfig :=
  { public := false, aws_access_key_id := [], aws_secret_access_key := [],
    aws_session_token := [], region_name := [], creds_file := none,
    env_google_creds := none }

theorem get_fs_s3_ok (anon : Bool) (k s tok r : Str) (g : Option GcsToken) :
    ∃ fs, get_fs (str "s3") anon k s tok r g = Except.ok fs := by
  unfold get_fs
  rw [if_pos rfl]
  cases anon
  · exact ⟨_, by rw [if_neg (by simp)]⟩
  · exact ⟨_, by rw [if_pos rfl]⟩

/-- C4 (counterexample): connecting to `s3://bucket/` non-anonymously
with every credential field empty and no environment default still
establishes a Connected state (the missing-credentials check exists only
on the gs branch); and with an unrecognized scheme the handler is
skipped without raising any error. -/
theorem connect_no_credential_check_on_s3 :
    connect_handler (str "s3://bucket/") cfgNoCreds =
      ConnectOutcome.connected ⟨str "s3://bucket/", str "s3"⟩ (Fs.s3Opts none none) ∧
    connect_handler (str "ftp://bucket/") cfgNoCreds = ConnectOutcome.skipped := by
  constructor
  · decide
  · decide

/-- C4 (amended): an unrecognized scheme makes the connect attempt a
no-op (no Connected state; the `UnsupportedScheme` error lives in
`get_fs`, which the handler then never invokes); the MissingCredentials
failure — non-anonymous access with neither an explicit credential nor
an environment default — halts the connection only for the `gs` scheme;
for `s3` the handler always constructs the accessor and establishes a
Connected state at the cleaned prefix. -/
theorem connect_error_behavior (input : Str) (cfg : ConnectConfig) :
    (detect_scheme input = [] → connect_handler input cfg = ConnectOutcome.skipped) ∧
    (∀ (scheme : Str) (anon : Bool) (k s tok r : Str) (g : Option GcsToken),
      scheme ≠ str "s3" → scheme ≠ str "gs" →
      get_fs scheme anon k s tok r g =
        Except.error (str "Unsupported scheme. Use s3:// or gs://")) ∧
    (detect_scheme input = str "gs" → cfg.public = false → cfg.creds_file = none →
      cfg.env_google_creds = none →
      connect_handler input cfg = ConnectOutcome.missingCredentials) ∧
    (detect_scheme input = str "s3" →
      ∃ fs, connect_handler input cfg =
        ConnectOutcome.connected ⟨ clean_prefix input, str "s3"⟩ fs) := by
  refine ⟨?_, ?_, ?_, ?_⟩
  · intro h
    unfold connect_handler
    rw [h]
    rfl
  · intro scheme anon k s tok r g h3 hgs
    unfold get_fs
    rw [if_neg h3, if_neg hgs]
  · intro hgs hpub hfile henv
    unfold connect_handler
    rw [hgs]
    rw [if_neg (by decide), if_neg (by decide), if_pos ⟨hpub, hfile, henv⟩]
  · intro hs3
    obtain ⟨fs, hfs⟩ := get_fs_s3_ok cfg.public cfg.aws_access_key_id
      cfg.aws_secret_access_key cfg.aws_session_token cfg.region_name none
    refine ⟨fs, ?_⟩
    unfold connect_handler
    rw [hs3]
    rw [if_neg (by decide), if_pos rfl, hfs]

/-- Witness for C4 (amended) at concrete inputs. -/
theorem connect_error_behavior_witness :
    connect_handler (str "ftp://bucket/") cfgNoCreds = ConnectOutcome.skipped ∧
    get_fs (str "ftp") true [] [] [] [] none =
      Except.error (str "Unsupported scheme. Use s3:// or gs://") ∧
    connect_handler (str "gs://bucket/") cfgNoCreds = ConnectOutcome.missingCredentials ∧
    (∃ fs, connect_handler (str "s3://bucket/") cfgNoCreds =
      ConnectOutcome.connected ⟨ clean_prefix (str "s3://bucket/"), str "s3"⟩ fs) := by
  refine ⟨?_, ?_, ?_, ?_⟩
  · exact (connect_error_behavior (str "ftp://bucket/") cfgNoCreds).1 (by decide)
  · exact (connect_error_behavior (str "ftp://bucket/") cfgNoCreds).2.1
      (str "ftp") true [] [] [] [] none (by decide) (by decide)
  · exact (connect_error_behavior (str "gs://bucket/") cfgNoCreds).2.2.1
      (by decide) rfl rfl rfl
  · exact (connect_error_behavior (str "s3://bucket/") cfgNoCreds).2.2.2 (by decide)

/-- Folder labels offered in the selectbox (`app.py` line 260):
`basename_from_path(d.rstrip('/'))` for each listed directory. -/
def folder_names (dirs : List Str) : List Str :=
  dirs.map (fun d => basename_from_path (rstripSlash d))

/-- File labels offered in the multiselect (`app.py` line 275). -/
def file_labels (files : List Str) : List Str :=
  files.map basename_from_path

/-- Resolution of a selected folder label (`app.py` lines 263-265):
`idx = folder_names.index(selected)` (Python `.index` returns the FIRST
occurrence, raising when absent — modelled as `none`), then
`dirs[idx]`. -/
def resolve_folder (dirs : List Str) (selected : Str) : Option Str :=
  dirs.get? ((folder_names dirs).indexOf selected)

/-- Resolution of a selected file label (`app.py` line 277):
`file_labels.index(lbl)`, then `files[i]`. -/
def resolve_file (files : List Str) (selected : Str) : Option Str :=
  files.get? ((file_labels files).indexOf selected)

theorem dropWhileSlash_idem (l : Str) :
    (l.dropWhile (fun c => c == '/')).dropWhile (fun c => c == '/') =
      l.dropWhile (fun c => c == '/') := by
  induction l with
  | nil => rfl
  | cons c t ih =>
    by_cases hc : (c == '/') = true
    · simp [List.dropWhile_cons, hc, ih]
    · simp [List.dropWhile_cons, hc]

theorem rstripSlash_idem (p : Str) : rstripSlash (rstripSlash p) = rstripSlash p := by
  unfold rstripSlash
  rw [List.reverse_reverse, dropWhileSlash_idem]

/-- The extra `rstrip('/')` in the folder-label computation is a no-op:
`basename_from_path` itself begins by stripping trailing slashes. -/
theorem basename_rstrip (p : Str) :
    basename_from_path (rstripSlash p) = basename_from_path p := by
  unfold basename_from_path
  rw [rstripSlash_idem]

theorem folder_names_eq_file_labels (paths : List Str) :
    folder_names paths = file_labels paths := by
  unfold folder_names file_labels
  exact List.map_congr_left (fun d _ => basename_rstrip d)


theorem indexOf_cons_unfold (a b : Str) (t : List Str) :
    (b :: t).indexOf a = if b == a then 0 else (t.indexOf a) + 1 := by
  simp [List.indexOf, List.findIdx_cons, Bool.cond_eq_ite]

theorem get?_indexOf_of_mem {l : List Str} {a : Str} (h : a ∈ l) :
    l.get? (l.indexOf a) = some a := by
  induction l with
  | nil => simp at h
  | cons b t ih =>
    rw [indexOf_cons_unfold]
    by_cases hba : (b == a) = true
    · rw [if_pos hba]
      have hb : b = a := by simpa using hba
      simp [hb]
    · rw [if_neg hba]
      have ha : a ∈ t := by
        rcases List.mem_cons.1 h with h1 | h1
        · exact absurd (by simp [h1]) hba
        · exact h1
      simpa using ih ha

theorem indexOf_lt_length_of_mem {l : List Str} {a : Str} (h : a ∈ l) :
    l.indexOf a < l.length := by
  induction l with
  | nil => simp at h
  | cons b t ih =>
    rw [indexOf_cons_unfold]
    by_cases hba : (b == a) = true
    · rw [if_pos hba]; simp
    · rw [if_neg hba]
      have ha : a ∈ t := by
        rcases List.mem_cons.1 h with h1 | h1
        · exact absurd (by simp [h1]) hba
        · exact h1
      simpa using ih ha

theorem get?_ne_of_lt_indexOf {l : List Str} {a : Str} {m : Nat}
    (hm : m < l.indexOf a) : l.get? m ≠ some a := by
  induction l generalizing m with
  | nil =>
    have h0 : List.indexOf a ([] : List Str) = 0 := rfl
    omega
  | cons b t ih =>
    rw [indexOf_cons_unfold] at hm
    by_cases hba : (b == a) = true
    · rw [if_pos hba] at hm
      omega
    · rw [if_neg hba] at hm
      cases m with
      | zero =>
        have hb : b ≠ a := by simpa using hba
        simp [hb]
      | succ m0 => simpa using ih (by omega)

theorem indexOf_le_of_get?_eq {l : List Str} {a : Str} {j : Nat}
    (hj : l.get? j = some a) : l.indexOf a ≤ j := by
  by_contra hlt
  push_neg at hlt
  exact get?_ne_of_lt_indexOf hlt hj

/-- C10: the selection interfaces look a chosen basename label up with
`.index`, which returns the first matching position; so whenever entries
`i` and `j` share a basename, selecting either entry's label (folder or
file flavour) resolves to the entry at the least index `k` carrying that
basename — the later duplicate can never be opened or loaded. -/
theorem duplicate_basename_selection (paths : List Str) (i j : Nat)
    (hi : i < paths.length) (hj : j < paths.length)
    (hdup : basename_from_path (paths.get ⟨i, hi⟩) =
      basename_from_path (paths.get ⟨j, hj⟩)) :
    ∃ (k : Nat) (hk : k < paths.length),
      k ≤ i ∧ k ≤ j ∧
      basename_from_path (paths.get ⟨k, hk⟩) =
        basename_from_path (paths.get ⟨j, hj⟩) ∧
      resolve_folder paths (basename_from_path (rstripSlash (paths.get ⟨j, hj⟩))) =
        some (paths.get ⟨k, hk⟩) ∧
      resolve_folder paths (basename_from_path (rstripSlash (paths.get ⟨i, hi⟩))) =
        some (paths.get ⟨k, hk⟩) ∧
      resolve_file paths (basename_from_path (paths.get ⟨j, hj⟩)) =
        some (paths.get ⟨k, hk⟩) ∧
      resolve_file paths (basename_from_path (paths.get ⟨i, hi⟩)) =
        some (paths.get ⟨k, hk⟩) ∧
      ∀ m (hm : m < k),
        basename_from_path (paths.get ⟨m, Nat.lt_trans hm hk⟩) ≠
          basename_from_path (paths.get ⟨j, hj⟩) := by
  have hlabget : ∀ (n : Nat) (hn : n < paths.length),
      (file_labels paths).get? n = some (basename_from_path (paths.get ⟨n, hn⟩)) := by
    intro n hn
    unfold file_labels
    rw [List.get?_map, List.get?_eq_get hn]
    rfl
  have hjq : (file_labels paths).get? j = some (basename_from_path (paths.get ⟨j, hj⟩)) :=
    hlabget j hj
  have hiq : (file_labels paths).get? i = some (basename_from_path (paths.get ⟨j, hj⟩)) := by
    rw [hlabget i hi, hdup]
  have hmem : basename_from_path (paths.get ⟨j, hj⟩) ∈ file_labels paths :=
    List.mem_iff_get?.2 ⟨j, hjq⟩
  have hklt : (file_labels paths).indexOf (basename_from_path (paths.get ⟨j, hj⟩)) <
      (file_labels paths).length := indexOf_lt_length_of_mem hmem
  have hlen : (file_labels paths).length = paths.length := List.length_map _ _
  have hkp : (file_labels paths).indexOf (basename_from_path (paths.get ⟨j, hj⟩)) <
      paths.length := by omega
  have hkq : (file_labels paths).get?
      ((file_labels paths).indexOf (basename_from_path (paths.get ⟨j, hj⟩))) =
      some (basename_from_path (paths.get ⟨j, hj⟩)) := get?_indexOf_of_mem hmem
  have hkbase : basename_from_path
      (paths.get ⟨(file_labels paths).indexOf (basename_from_path (paths.get ⟨j, hj⟩)),
        hkp⟩) = basename_from_path (paths.get ⟨j, hj⟩) := by
    have h2 := hlabget ((file_labels paths).indexOf
      (basename_from_path (paths.get ⟨j, hj⟩))) hkp
    rw [h2] at hkq
    exact Option.some.inj hkq
  have hkj := indexOf_le_of_get?_eq hjq
  have hki := indexOf_le_of_get?_eq hiq
  have hresf : resolve_file paths (basename_from_path (paths.get ⟨j, hj⟩)) =
      some (paths.get
        ⟨(file_labels paths).indexOf (basename_from_path (paths.get ⟨j, hj⟩)), hkp⟩) := by
    unfold resolve_file
    exact List.get?_eq_get hkp
  have hresd : resolve_folder paths (basename_from_path (paths.get ⟨j, hj⟩)) =
      some (paths.get
        ⟨(file_labels paths).indexOf (basename_from_path (paths.get ⟨j, hj⟩)), hkp⟩) := by
    unfold resolve_folder
    rw [folder_names_eq_file_labels]
    exact List.get?_eq_get hkp
  refine ⟨(file_labels paths).indexOf (basename_from_path (paths.get ⟨j, hj⟩)), hkp,
    hki, hkj, hkbase, ?_, ?_, ?_, ?_, ?_⟩
  · rw [basename_rstrip]
    exact hresd
  · rw [basename_rstrip, hdup]
    exact hresd
  · exact hresf
  · rw [hdup]
    exact hresf
  · intro m hm hcon
    have hmq : (file_labels paths).get? m =
        some (basename_from_path (paths.get ⟨m, Nat.lt_trans hm hkp⟩)) :=
      hlabget m (Nat.lt_trans hm hkp)
    have hne := get?_ne_of_lt_indexOf (l := file_labels paths)
      (a := basename_from_path (paths.get ⟨j, hj⟩)) (m := m) hm
    apply hne
    rw [hmq, hcon]

/-- Concrete directory list with two entries sharing the basename
`data`. -/
def dirsDup : List Str := [str "s3://b/x/data/", str "s3://b/y/data/"]

/-- Witness for C10: with two directories both labelled `data`,
selecting the label always opens the first. -/
theorem duplicate_basename_selection_witness :
    ∃ (k : Nat) (hk : k < dirsDup.length),
      k ≤ 0 ∧ k ≤ 1 ∧
      basename_from_path (dirsDup.get ⟨k, hk⟩) =
        basename_from_path (dirsDup.get ⟨1, by decide⟩) ∧
      resolve_folder dirsDup (basename_from_path (rstripSlash (dirsDup.get ⟨1, by decide⟩))) =
        some (dirsDup.get ⟨k, hk⟩) ∧
      resolve_folder dirsDup (basename_from_path (rstripSlash (dirsDup.get ⟨0, by decide⟩))) =
        some (dirsDup.get ⟨k, hk⟩) ∧
      resolve_file dirsDup (basename_from_path (dirsDup.get ⟨1, by decide⟩)) =
        some (dirsDup.get ⟨k, hk⟩) ∧
      resolve_file dirsDup (basename_from_path (dirsDup.get ⟨0, by decide⟩)) =
        some (dirsDup.get ⟨k, hk⟩) ∧
      ∀ m (hm : m < k),
        basename_from_path (dirsDup.get ⟨m, Nat.lt_trans hm hk⟩) ≠
          basename_from_path (dirsDup.get ⟨1, by decide⟩) :=
  duplicate_basename_selection dirsDup 0 1 (by decide) (by decide) (by decide)
